import Mathlib

/-!
Shallow embedding of the EventDisplay repository's core numeric logic:

* the cylindrical unfolding projectors `project2d_slow` and `project2d`
  from `event_display.py`, and the variant `project2d` from
  `src/utils/root/project_2d_from_root.py` (embedded here as
  `root_project2d`);
* the pairwise distance matrix `compute_distance_matrix` and the
  neighbor lookup `compute_knn_lookup` from
  `geometries/scripts/compute_pmt_distances.py`.

Python floats are modelled as real numbers; elementwise `ak.where`
chains are modelled as per-hit conditional chains applied by `List.map`.
-/

open Real

/-- A single 3D sensor hit (one entry of the parallel `x`, `y`, `z` arrays). -/
structure Hit where
  x : ℝ
  y : ℝ
  z : ℝ
deriving Inhabited

/-- Two-argument arctangent, the mathematical function computed by
`np.arctan2(y, x)`: angle of the point `(x, y)` in `(-π, π]`, with
`atan2 0 0 = 0`. -/
noncomputable def atan2 (y x : ℝ) : ℝ :=
  if 0 < x then Real.arctan (y / x)
  else if x < 0 then
    if 0 ≤ y then Real.arctan (y / x) + Real.pi
    else Real.arctan (y / x) - Real.pi
  else
    if 0 < y then Real.pi / 2
    else if y < 0 then -(Real.pi / 2)
    else 0

/-- One detector entry of the `detector_geom` dictionary in `event_display.py`. -/
structure Geometry where
  height : ℝ
  cylinder_radius : ℝ
  PMT_radius : ℝ

/-- The experiment keys of the `detector_geom` dictionary in `event_display.py`. -/
inductive Experiment where
  | SK
  | HK
  | WCTE
deriving DecidableEq

/-- The `detector_geom` dictionary of `event_display.py` (values in cm). -/
noncomputable def detector_geom : Experiment → Geometry
  | .SK => ⟨3620, 3368.15 / 2, 25.4⟩
  | .HK => ⟨6575.1, 6480 / 2, 25.4⟩
  | .WCTE => ⟨338, 369.6 / 2, 4⟩

/-- The `eps_top` cap margin selected inside both projectors of
`event_display.py`: 60 for WCTE, 0.01 otherwise. -/
noncomputable def eps_top : Experiment → ℝ
  | .WCTE => 60
  | _ => 0.01

/-- The `eps_bottom` cap margin selected inside both projectors of
`event_display.py`: 50 for WCTE, 0.01 otherwise. -/
noncomputable def eps_bottom : Experiment → ℝ
  | .WCTE => 50
  | _ => 0.01

/-- The per-hit body of the vectorized `project2d` of `event_display.py`.
The `ak.where` chain is elementwise, so it is an overwrite chain per hit:
start from `(0, 0)` (the `ak.zeros_like` initializers), write the cylinder
value where `cylinder_mask` holds, then the top-cap value where
`top_cap_mask` holds, then the bottom-cap value where `bottom_cap_mask`
holds.  Note the azimuth is the raw `np.arctan2` value, not normalized. -/
noncomputable def project2dPoint (r zMax zMin epsTop epsBottom : ℝ) (h : Hit) :
    ℝ × ℝ :=
  let top : Prop := h.z > zMax - epsTop
  let bottom : Prop := h.z < zMin + epsBottom
  let cyl : Prop := ¬ (top ∨ bottom)
  let x1 : ℝ := if cyl then r * (atan2 h.y h.x - Real.pi) else 0
  let y1 : ℝ := if cyl then h.z else 0
  let x2 : ℝ := if top then -h.y else x1
  let y2 : ℝ := if top then h.x + zMax + r else y1
  let x3 : ℝ := if bottom then -h.y else x2
  let y3 : ℝ := if bottom then -h.x + zMin - r else y2
  (x3, y3)

/-- The vectorized `project2d` of `event_display.py`: elementwise
projection of every hit, with `zMax = height/2`, `zMin = -height/2` taken
from the supplied geometry and the cap margins selected by experiment. -/
noncomputable def project2d (dg : Experiment → Geometry) (e : Experiment)
    (hits : List Hit) : List (ℝ × ℝ) :=
  hits.map (project2dPoint (dg e).cylinder_radius ((dg e).height / 2)
    (-((dg e).height / 2)) (eps_top e) (eps_bottom e))

/-- The per-hit body of `project2d_slow` of `event_display.py`: the loop
appends exactly one `(xproj, yproj)` point per hit, with the azimuth
normalized to `[0, 2π)` by adding `2π` when negative. -/
noncomputable def project2dSlowPoint (r zMax zMin epsTop epsBottom : ℝ)
    (h : Hit) : ℝ × ℝ :=
  if h.z < zMax - epsTop ∧ h.z > zMin + epsBottom then
    let azimuth := atan2 h.y h.x
    let azimuth := if azimuth < 0 then 2 * Real.pi + azimuth else azimuth
    (r * (azimuth - Real.pi), h.z)
  else if h.z > zMax - epsTop then
    (-h.y, h.x + zMax + r)
  else
    (-h.y, -h.x + zMin - r)

/-- The loop-based `project2d_slow` of `event_display.py`. -/
noncomputable def project2d_slow (dg : Experiment → Geometry) (e : Experiment)
    (hits : List Hit) : List (ℝ × ℝ) :=
  hits.map (project2dSlowPoint (dg e).cylinder_radius ((dg e).height / 2)
    (-((dg e).height / 2)) (eps_top e) (eps_bottom e))

/-- The experiment keys of the `DETECTOR_GEOM` dictionary in
`src/utils/detector_geometries.py`.  (The string `WCTE_r` accepted by the
rotation branch of `src/utils/root/project_2d_from_root.py` has no
`DETECTOR_GEOM` entry, so calling that projector with it would raise a
`KeyError`; it is therefore not part of the usable domain modelled here.) -/
inductive RootExperiment where
  | SK
  | HK
  | HK_realistic
  | WCTE
  | DEMO
deriving DecidableEq

/-- The `DETECTOR_GEOM` dictionary of `src/utils/detector_geometries.py`. -/
noncomputable def DETECTOR_GEOM : RootExperiment → Geometry
  | .SK => ⟨3620, 3368.15 / 2, 25.4⟩
  | .HK => ⟨6575.1, 6480 / 2, 25.4⟩
  | .HK_realistic => ⟨6701.41, 3242.96, 25.4⟩
  | .WCTE => ⟨338, 369.6 / 2, 4⟩
  | .DEMO => ⟨558.92 * 2, 558.92, 25.4⟩

/-- The `eps_top` margin selected inside the root-variant `project2d`:
10 in the rotation branch (`DEMO`) and for `WCTE`, 0.01 otherwise. -/
noncomputable def root_eps_top : RootExperiment → ℝ
  | .DEMO => 10
  | .WCTE => 10
  | _ => 0.01

/-- The `eps_bottom` margin selected inside the root-variant `project2d`:
10 in the rotation branch (`DEMO`) and for `WCTE`, 0.01 otherwise. -/
noncomputable def root_eps_bottom : RootExperiment → ℝ
  | .DEMO => 10
  | .WCTE => 10
  | _ => 0.01

/-- The axis-realignment rotation applied inside the root-variant
`project2d` for experiments in the rotation branch (`DEMO` here): rotate
by `thetax = π/2` around the x axis, then by `thetaz = 0` around the
z axis, exactly as written in the source. -/
noncomputable def rootRotate (e : RootExperiment) (h : Hit) : Hit :=
  match e with
  | .DEMO =>
      let thetax := Real.pi / 2
      let thetaz := (0 : ℝ)
      let xRx := h.x
      let yRx := Real.cos thetax * h.y - Real.sin thetax * h.z
      let zRx := Real.sin thetax * h.y + Real.cos thetax * h.z
      ⟨Real.cos thetaz * xRx + Real.sin thetaz * yRx,
       -Real.sin thetaz * xRx + Real.cos thetaz * yRx,
       zRx⟩
  | _ => h

/-- `np.max` of a list of reals: the maximum of a nonempty list.
(`np.max` raises on an empty array; the value at `[]` here is a junk
default never used on the source's domain.) -/
noncomputable def listMax : List ℝ → ℝ
  | [] => 0
  | x :: xs => xs.foldl max x

/-- `np.min` of a list of reals: the minimum of a nonempty list.
(`np.min` raises on an empty array; the value at `[]` here is a junk
default never used on the source's domain.) -/
noncomputable def listMin : List ℝ → ℝ
  | [] => 0
  | x :: xs => xs.foldl min x

/-- The per-hit body of the root-variant `project2d` of
`src/utils/root/project_2d_from_root.py`: the same elementwise
`ak.where` overwrite chain as `project2dPoint`, but with the azimuth
normalized to `[0, 2π)` (the source adds `2π` where negative). -/
noncomputable def root_project2dPoint (r zMax zMin epsTop epsBottom : ℝ)
    (h : Hit) : ℝ × ℝ :=
  let top : Prop := h.z > zMax - epsTop
  let bottom : Prop := h.z < zMin + epsBottom
  let cyl : Prop := ¬ (top ∨ bottom)
  let azimuth := atan2 h.y h.x
  let azimuth := if azimuth < 0 then 2 * Real.pi + azimuth else azimuth
  let x1 : ℝ := if cyl then r * (azimuth - Real.pi) else 0
  let y1 : ℝ := if cyl then h.z else 0
  let x2 : ℝ := if top then -h.y else x1
  let y2 : ℝ := if top then h.x + zMax + r else y1
  let x3 : ℝ := if bottom then -h.y else x2
  let y3 : ℝ := if bottom then -h.x + zMin - r else y2
  (x3, y3)

/-- The root-variant `project2d` of
`src/utils/root/project_2d_from_root.py`.  Unlike the `event_display.py`
projector, it derives `zMax = np.max(Z)` and `zMin = np.min(Z)` from the
hit data itself (the geometry-based definitions are commented out in the
source), after applying the experiment's axis-realignment rotation. -/
noncomputable def root_project2d (e : RootExperiment) (hits : List Hit) :
    List (ℝ × ℝ) :=
  let rotated := hits.map (rootRotate e)
  let zMax := listMax (rotated.map Hit.z)
  let zMin := listMin (rotated.map Hit.z)
  rotated.map (root_project2dPoint (DETECTOR_GEOM e).cylinder_radius zMax zMin
    (root_eps_top e) (root_eps_bottom e))

/-- One row of the PMT table read by
`geometries/scripts/compute_pmt_distances.py` (columns
`tube_id, x, y, z`). -/
structure Sensor where
  tube_id : ℤ
  x : ℝ
  y : ℝ
  z : ℝ

/-- Position of the `i`-th sensor (row `i` of `pmt_df[['x','y','z']].values`);
a junk default outside the table, never reached on valid indices. -/
noncomputable def posOf (sensors : List Sensor) (i : ℕ) : ℝ × ℝ × ℝ :=
  let s := sensors.getD i ⟨0, 0, 0, 0⟩
  (s.x, s.y, s.z)

/-- Euclidean distance between two 3D points, the per-pair formula of
`scipy.spatial.distance.cdist(·, ·, metric='euclidean')`. -/
noncomputable def dist3 (p q : ℝ × ℝ × ℝ) : ℝ :=
  Real.sqrt ((p.1 - q.1) ^ 2 + (p.2.1 - q.2.1) ^ 2 + (p.2.2 - q.2.2) ^ 2)

/-- `n_chunks = (n_pmts + chunk_size - 1) // chunk_size`. -/
def nChunks (n c : ℕ) : ℕ := (n + c - 1) / c

/-- The chunk assignment `distance_matrix[start_i:end_i, :] = cdist(...)`:
rows `lo ≤ i < hi` of the `n`-column matrix are set to the pairwise
distances, every other entry is left as in `D`.  (The `n × n` NumPy array
has no entries outside `i, j < n`; here they stay at the initializer.) -/
noncomputable def writeChunk (pos : ℕ → ℝ × ℝ × ℝ) (n lo hi : ℕ)
    (D : ℕ → ℕ → ℝ) : ℕ → ℕ → ℝ :=
  fun i j => if lo ≤ i ∧ i < hi ∧ j < n then dist3 (pos i) (pos j) else D i j

/-- `compute_distance_matrix` of
`geometries/scripts/compute_pmt_distances.py`: starting from the
`np.zeros((n, n))` initializer, process `nChunks` row blocks of size
`chunk_size`, each block `k` covering rows
`[k * chunk_size, min ((k+1) * chunk_size, n))`; return the matrix
together with the `tube_ids` column.  There is no emptiness check in the
source: an empty table yields zero chunks and the empty matrix. -/
noncomputable def compute_distance_matrix (sensors : List Sensor)
    (chunk_size : ℕ) : (ℕ → ℕ → ℝ) × List ℤ :=
  let n := sensors.length
  ((List.range (nChunks n chunk_size)).foldl
      (fun D k => writeChunk (posOf sensors) n (k * chunk_size)
        (min ((k + 1) * chunk_size) n) D)
      (fun _ _ => 0),
   sensors.map Sensor.tube_id)

/-- The comparison used to model `np.argsort(distances)` on index lists:
index `i` comes before index `j` when its value is smaller, with ties in
ascending index order.  CAUTION on the tie order: the source calls
`np.argsort` with its default `kind='quicksort'` (an unstable introsort),
which guarantees only that values are non-decreasing; it gives no tie
order for arrays above its small insertion-sort cutoff.  Fixing
ascending-index ties here matches real numpy exactly on the short
concrete rows evaluated in this file, but general theorems must rely
only on tie-order-independent consequences of this comparison
(value non-decreasing along the output, output a permutation of the
index range). -/
noncomputable def leIdx (l : List ℝ) (i j : ℕ) : Bool :=
  decide (l.getD i 0 < l.getD j 0 ∨ (l.getD i 0 = l.getD j 0 ∧ i ≤ j))

/-- `np.argsort` on a list of reals: the indices `0, ..., length - 1`
sorted by value.  Ties are realized in ascending index order (see the
caution on `leIdx`: the program itself guarantees no tie order; only the
permutation and value-sortedness properties of this definition, and its
evaluations on rows short enough for numpy's insertion sort, reflect the
program). -/
noncomputable def argsort (l : List ℝ) : List ℕ :=
  (List.range l.length).mergeSort (leIdx l)

/-- The index list used for row `i` of the KNN lookup:
`sorted_indices = np.argsort(distance_matrix[i, :])` followed by
`nearest_indices = sorted_indices[1:]` (the first entry is assumed to be
self). -/
noncomputable def knnIndices (D : ℕ → ℕ → ℝ) (n i : ℕ) : List ℕ :=
  (argsort ((List.range n).map (D i))).drop 1

/-- `compute_knn_lookup` of
`geometries/scripts/compute_pmt_distances.py`: for each row `i`, take
the argsorted indices without their first entry, optionally keep only
those with distance strictly below `max_distance`, map them to tube ids,
and right-pad the `n - 1`-wide row with the sentinel `-1`. -/
noncomputable def compute_knn_lookup (D : ℕ → ℕ → ℝ) (tube_ids : List ℤ)
    (max_distance : Option ℝ) : List (List ℤ) :=
  let n := tube_ids.length
  (List.range n).map (fun i =>
    let nearest := knnIndices D n i
    let nearest := match max_distance with
      | none => nearest
      | some m => nearest.filter (fun j => decide (D i j < m))
    nearest.map (fun j => tube_ids.getD j 0) ++
      List.replicate (n - 1 - nearest.length) (-1))

-- Branch-evaluation lemmas for the three projector bodies.

lemma project2dPoint_of_bottom {r zMax zMin epsTop epsBottom : ℝ} {h : Hit}
    (hb : h.z < zMin + epsBottom) :
    project2dPoint r zMax zMin epsTop epsBottom h = (-h.y, -h.x + zMin - r) := by
  simp only [project2dPoint, if_pos hb]

lemma project2dPoint_of_top {r zMax zMin epsTop epsBottom : ℝ} {h : Hit}
    (ht : h.z > zMax - epsTop) (hb : ¬ h.z < zMin + epsBottom) :
    project2dPoint r zMax zMin epsTop epsBottom h = (-h.y, h.x + zMax + r) := by
  simp only [project2dPoint, if_pos ht, if_neg hb]

lemma project2dPoint_of_cyl {r zMax zMin epsTop epsBottom : ℝ} {h : Hit}
    (ht : ¬ h.z > zMax - epsTop) (hb : ¬ h.z < zMin + epsBottom) :
    project2dPoint r zMax zMin epsTop epsBottom h
      = (r * (atan2 h.y h.x - Real.pi), h.z) := by
  simp only [project2dPoint, if_pos (not_or.mpr ⟨ht, hb⟩), if_neg ht, if_neg hb]

lemma root_project2dPoint_of_bottom {r zMax zMin epsTop epsBottom : ℝ}
    {h : Hit} (hb : h.z < zMin + epsBottom) :
    root_project2dPoint r zMax zMin epsTop epsBottom h
      = (-h.y, -h.x + zMin - r) := by
  simp only [root_project2dPoint, if_pos hb]

lemma root_project2dPoint_of_top {r zMax zMin epsTop epsBottom : ℝ} {h : Hit}
    (ht : h.z > zMax - epsTop) (hb : ¬ h.z < zMin + epsBottom) :
    root_project2dPoint r zMax zMin epsTop epsBottom h
      = (-h.y, h.x + zMax + r) := by
  simp only [root_project2dPoint, if_pos ht, if_neg hb]

lemma project2dSlowPoint_of_cyl {r zMax zMin epsTop epsBottom : ℝ} {h : Hit}
    (hc : h.z < zMax - epsTop ∧ h.z > zMin + epsBottom) :
    project2dSlowPoint r zMax zMin epsTop epsBottom h
      = (r * ((if atan2 h.y h.x < 0 then 2 * Real.pi + atan2 h.y h.x
          else atan2 h.y h.x) - Real.pi), h.z) := by
  simp only [project2dSlowPoint, if_pos hc]

lemma project2dSlowPoint_of_else {r zMax zMin epsTop epsBottom : ℝ} {h : Hit}
    (hc : ¬ (h.z < zMax - epsTop ∧ h.z > zMin + epsBottom))
    (ht : ¬ h.z > zMax - epsTop) :
    project2dSlowPoint r zMax zMin epsTop epsBottom h
      = (-h.y, -h.x + zMin - r) := by
  simp only [project2dSlowPoint, if_neg hc, if_neg ht]

/-- C10: in the vectorized projectors (both `event_display.py` and the
root-file variant), a hit satisfying both the top-cap condition
`z > zMax - eps_top` and the bottom-cap condition `z < zMin + eps_bottom`
is returned as the bottom-cap mapping `(-y, -x + zMin - cylinder_radius)`,
because the bottom-cap write is applied last and overwrites the top-cap
value. -/
theorem bottom_cap_overwrites_top_cap (r zMax zMin epsTop epsBottom : ℝ)
    (h : Hit) (_ht : h.z > zMax - epsTop) (hb : h.z < zMin + epsBottom) :
    project2dPoint r zMax zMin epsTop epsBottom h
        = (-h.y, -h.x + zMin - r) ∧
      root_project2dPoint r zMax zMin epsTop epsBottom h
        = (-h.y, -h.x + zMin - r) :=
  ⟨project2dPoint_of_bottom hb, root_project2dPoint_of_bottom hb⟩

/-- Witness for C10 at a concrete overlapping-margins input. -/
theorem bottom_cap_overwrites_top_cap_witness :
    project2dPoint 1 (1 / 200) (-(1 / 200)) (1 / 100) (1 / 100) ⟨1, 2, 0⟩
        = (-(2 : ℝ), -(1 : ℝ) + (-(1 / 200)) - 1) ∧
      root_project2dPoint 1 (1 / 200) (-(1 / 200)) (1 / 100) (1 / 100) ⟨1, 2, 0⟩
        = (-(2 : ℝ), -(1 : ℝ) + (-(1 / 200)) - 1) :=
  bottom_cap_overwrites_top_cap 1 (1 / 200) (-(1 / 200)) (1 / 100) (1 / 100)
    ⟨1, 2, 0⟩ (by norm_num) (by norm_num)

/-- C4 (amended): in the vectorized projector, provided the two margins
sum to at most the height, a hit at exactly `z = height/2 - eps_top` is
classified as barrel (the top-cap test is strict `>`), so it gets the
barrel mapping. -/
theorem boundary_hit_is_barrel (r height epsTop epsBottom x y : ℝ)
    (hsum : epsTop + epsBottom ≤ height) :
    project2dPoint r (height / 2) (-(height / 2)) epsTop epsBottom
        ⟨x, y, height / 2 - epsTop⟩
      = (r * (atan2 y x - Real.pi), height / 2 - epsTop) := by
  have ht : ¬ ((⟨x, y, height / 2 - epsTop⟩ : Hit).z > height / 2 - epsTop) :=
    lt_irrefl _
  have hb : ¬ ((⟨x, y, height / 2 - epsTop⟩ : Hit).z
      < -(height / 2) + epsBottom) := by
    simp only
    intro hcon
    linarith
  exact project2dPoint_of_cyl ht hb

/-- Witness for C4 at a concrete boundary hit. -/
theorem boundary_hit_is_barrel_witness :
    project2dPoint 2 (10 / 2) (-(10 / 2)) (1 / 100) (1 / 100)
        ⟨1, 0, 10 / 2 - 1 / 100⟩
      = (2 * (atan2 0 1 - Real.pi), 10 / 2 - 1 / 100) :=
  boundary_hit_is_barrel 2 10 (1 / 100) (1 / 100) 1 0 (by norm_num)

/-- Counterexample for C4 as stated: (a) in the loop-based
`project2d_slow` the hit at exactly `z = height/2 - eps_top` fails the
strict cylinder test `z < zMax - eps_top`, fails the top-cap test, and is
therefore given the bottom-cap mapping — here `(0, -8)`, whose second
coordinate is not the barrel value `y2d = z`; (b) in the vectorized
projector, when the margins sum to more than the height
(`eps_top = 0`, `eps_bottom = 20 > height = 10`), the same boundary hit
satisfies the bottom-cap condition and gets the bottom-cap mapping
`(0, -7)`, not the barrel mapping. -/
theorem boundary_hit_slow_bottom_cap :
    (project2dSlowPoint 2 (10 / 2) (-(10 / 2)) (1 / 100) (1 / 100)
          ⟨1, 0, 10 / 2 - 1 / 100⟩
        = (0, -8) ∧ (-8 : ℝ) ≠ 10 / 2 - 1 / 100) ∧
      (project2dPoint 1 (10 / 2) (-(10 / 2)) 0 20 ⟨1, 0, 10 / 2 - 0⟩
        = (0, -7) ∧ (-7 : ℝ) ≠ 10 / 2 - 0) := by
  refine ⟨⟨?_, by norm_num⟩, ⟨?_, by norm_num⟩⟩
  · rw [project2dSlowPoint_of_else (by simp only; norm_num)
      (by simp only; norm_num)]
    norm_num
  · rw [project2dPoint_of_bottom (by simp only; norm_num)]
    norm_num

/-- C8 (amended): `project2d` performs no geometry validation — there is
no `ConfigurationError` (no such type exists in the repository); with
`cylinder_radius ≤ 0` or `height ≤ 0` it still returns one projected
point per hit, computed by the same formulas. -/
theorem project2d_no_geometry_validation (dg : Experiment → Geometry)
    (e : Experiment) (hits : List Hit)
    (_hbad : (dg e).cylinder_radius ≤ 0 ∨ (dg e).height ≤ 0) :
    (project2d dg e hits).length = hits.length := by
  simp [project2d]

/-- Witness for C8 at a concrete nonpositive geometry. -/
theorem project2d_no_geometry_validation_witness :
    (project2d (fun _ => ⟨-2, -1, 1⟩) .SK [⟨0, 0, 0⟩]).length = 1 :=
  project2d_no_geometry_validation (fun _ => ⟨-2, -1, 1⟩) .SK [⟨0, 0, 0⟩]
    (Or.inl (by norm_num))

/-- Counterexample for C8 as stated: with `height = -2` and
`cylinder_radius = -1` the projector does not fail — it returns the
definite point `(0, 2)` for the hit `(0, 0, 0)` (which lands in the
bottom-cap branch since `zMin = 1` here). -/
theorem project2d_nonpositive_geometry_output :
    project2d (fun _ => ⟨-2, -1, 1⟩) .SK [⟨0, 0, 0⟩] = [((0 : ℝ), 2)] := by
  simp only [project2d, List.map]
  rw [project2dPoint_of_bottom (by simp only [eps_bottom]; norm_num)]
  norm_num

/-- C1 (amended): the `event_display.py` projector is pointwise pure —
the projected point at index `i` depends only on the hit at index `i`
together with the geometry and the experiment's margins: two hit lists
that agree at index `i` project to the same point at index `i`. -/
theorem project2d_pointwise (dg : Experiment → Geometry) (e : Experiment)
    (hits1 hits2 : List Hit) (i : ℕ) (hagree : hits1[i]? = hits2[i]?) :
    (project2d dg e hits1)[i]? = (project2d dg e hits2)[i]? := by
  simp only [project2d, List.getElem?_map, hagree]

/-- Witness for C1 on two concrete hit lists agreeing at index 0. -/
theorem project2d_pointwise_witness :
    (project2d detector_geom .SK [⟨1, 0, 0⟩, ⟨0, 0, 1⟩])[0]?
      = (project2d detector_geom .SK [⟨1, 0, 0⟩, ⟨2, 2, 2⟩])[0]? :=
  project2d_pointwise detector_geom .SK [⟨1, 0, 0⟩, ⟨0, 0, 1⟩]
    [⟨1, 0, 0⟩, ⟨2, 2, 2⟩] 0 rfl

/-- Counterexample for C1 as stated: in the root-file variant projector,
two hit lists that agree at index 0 project hit 0 differently, because
the cap boundaries are derived from `max`/`min` of all z values. -/
theorem root_project2d_not_pointwise :
    (([⟨1, 0, 5⟩, ⟨0, 0, 3⟩] : List Hit)[0]?
        = ([⟨1, 0, 5⟩, ⟨0, 0, 10⟩] : List Hit)[0]?) ∧
      (root_project2d .SK [⟨1, 0, 5⟩, ⟨0, 0, 3⟩])[0]?
        ≠ (root_project2d .SK [⟨1, 0, 5⟩, ⟨0, 0, 10⟩])[0]? := by
  refine ⟨rfl, ?_⟩
  have hA : (root_project2d .SK [⟨1, 0, 5⟩, ⟨0, 0, 3⟩])[0]?
      = some (-(0 : ℝ), (1 : ℝ) + 5 + 3368.15 / 2) := by
    simp only [root_project2d, rootRotate, List.map, listMax, listMin,
      List.foldl, DETECTOR_GEOM, root_eps_top, root_eps_bottom]
    rw [show max (5 : ℝ) 3 = 5 by norm_num, show min (5 : ℝ) 3 = 3 by norm_num,
      root_project2dPoint_of_top (by simp only; norm_num) (by simp only; norm_num)]
    rfl
  have hB : (root_project2d .SK [⟨1, 0, 5⟩, ⟨0, 0, 10⟩])[0]?
      = some (-(0 : ℝ), -(1 : ℝ) + 5 - 3368.15 / 2) := by
    simp only [root_project2d, rootRotate, List.map, listMax, listMin,
      List.foldl, DETECTOR_GEOM, root_eps_top, root_eps_bottom]
    rw [show max (5 : ℝ) 10 = 10 by norm_num, show min (5 : ℝ) 10 = 5 by norm_num,
      root_project2dPoint_of_bottom (by simp only; norm_num)]
    rfl
  rw [hA, hB]
  intro hcon
  rw [Option.some_inj, Prod.mk.injEq] at hcon
  have := hcon.2
  norm_num at this

lemma atan2_neg_one_zero : atan2 (-1) 0 = -(Real.pi / 2) := by
  simp only [atan2]
  norm_num

/-- C2 (code bug): the vectorized `project2d` of `event_display.py` uses
the raw `np.arctan2` azimuth without the `add 2π when negative`
normalization performed by `project2d_slow` (and by the root-file
variant), so the two projectors disagree on the barrel hit
`(0, -1, 0)` — the fast one returns `x2d = -3π·r/2`, outside the
`[-π·r, π·r]` strip, instead of `π·r/2`. -/
theorem project2d_azimuth_not_normalized :
    project2d detector_geom .SK [⟨0, -1, 0⟩]
      ≠ project2d_slow detector_geom .SK [⟨0, -1, 0⟩] := by
  have hfast : project2d detector_geom .SK [⟨0, -1, 0⟩]
      = [(3368.15 / 2 * (-(Real.pi / 2) - Real.pi), 0)] := by
    simp only [project2d, List.map, detector_geom, eps_top, eps_bottom]
    rw [project2dPoint_of_cyl (by simp only; norm_num) (by simp only; norm_num)]
    simp [atan2_neg_one_zero]
  have hslow : project2d_slow detector_geom .SK [⟨0, -1, 0⟩]
      = [(3368.15 / 2 * (2 * Real.pi + -(Real.pi / 2) - Real.pi), 0)] := by
    simp only [project2d_slow, List.map, detector_geom, eps_top, eps_bottom]
    rw [project2dSlowPoint_of_cyl (by constructor <;> (simp only; norm_num))]
    simp only [atan2_neg_one_zero]
    rw [if_pos (by linarith [Real.pi_pos])]
  rw [hfast, hslow]
  intro hcon
  rw [List.cons.injEq, Prod.mk.injEq] at hcon
  have h1 := hcon.1.1
  have h2 : -(Real.pi / 2) - Real.pi = 2 * Real.pi + -(Real.pi / 2) - Real.pi :=
    mul_left_cancel₀ (by norm_num) h1
  have := Real.pi_pos
  linarith

/-- C9 (amended): `compute_distance_matrix` performs no emptiness check
(no `ConfigurationError` exists in the repository); on the empty sensor
table it processes zero chunks and returns the untouched all-zero
(0 × 0) matrix together with the empty tube-id array. -/
theorem compute_distance_matrix_empty_returns_empty (c : ℕ) (hc : 1 ≤ c) :
    compute_distance_matrix [] c = (fun _ _ => (0 : ℝ), []) := by
  have h0 : nChunks 0 c = 0 := by
    unfold nChunks
    exact Nat.div_eq_of_lt (by omega)
  simp [compute_distance_matrix, h0]

/-- Witness for C9 at chunk size 1. -/
theorem compute_distance_matrix_empty_returns_empty_witness :
    compute_distance_matrix [] 1 = (fun _ _ => (0 : ℝ), []) :=
  compute_distance_matrix_empty_returns_empty 1 (le_refl 1)

/-- Counterexample for C9 as stated: at the source's default chunk size
5000 the call on the empty table returns (it does not fail), yielding the
empty matrix and empty tube-id list. -/
theorem compute_distance_matrix_empty_eval :
    compute_distance_matrix [] 5000 = (fun _ _ => (0 : ℝ), []) := rfl

lemma dist3_comm (p q : ℝ × ℝ × ℝ) : dist3 p q = dist3 q p := by
  unfold dist3
  congr 1
  ring

lemma dist3_self (p : ℝ × ℝ × ℝ) : dist3 p p = 0 := by
  simp [dist3]

lemma foldl_writeChunk_eval (pos : ℕ → ℝ × ℝ × ℝ) (n c : ℕ) (l : List ℕ)
    (D0 : ℕ → ℕ → ℝ) (i j : ℕ) :
    (l.foldl (fun D k => writeChunk pos n (k * c) (min ((k + 1) * c) n) D)
        D0) i j
      = if (∃ k ∈ l, k * c ≤ i ∧ i < min ((k + 1) * c) n) ∧ j < n
        then dist3 (pos i) (pos j) else D0 i j := by
  induction l generalizing D0 with
  | nil => simp
  | cons a l ih =>
    rw [List.foldl_cons, ih]
    by_cases hj : j < n
    · by_cases hcov : ∃ k ∈ l, k * c ≤ i ∧ i < min ((k + 1) * c) n
      · have hcov2 : ∃ k ∈ a :: l, k * c ≤ i ∧ i < min ((k + 1) * c) n := by
          obtain ⟨k, hk, hp⟩ := hcov
          exact ⟨k, List.mem_cons_of_mem a hk, hp⟩
        rw [if_pos ⟨hcov, hj⟩, if_pos ⟨hcov2, hj⟩]
      · rw [if_neg (fun hcon => hcov hcon.1)]
        by_cases ha : a * c ≤ i ∧ i < min ((a + 1) * c) n
        · rw [show writeChunk pos n (a * c) (min ((a + 1) * c) n) D0 i j
              = dist3 (pos i) (pos j) from if_pos ⟨ha.1, ha.2, hj⟩,
            if_pos ⟨⟨a, List.mem_cons_self a l, ha⟩, hj⟩]
        · rw [show writeChunk pos n (a * c) (min ((a + 1) * c) n) D0 i j
              = D0 i j from if_neg (fun hcon => ha ⟨hcon.1, hcon.2.1⟩)]
          rw [if_neg]
          rintro ⟨⟨k, hk, hp⟩, -⟩
          rcases List.mem_cons.mp hk with rfl | hk2
          · exact ha hp
          · exact hcov ⟨k, hk2, hp⟩
    · rw [if_neg (fun hcon => hj hcon.2), if_neg (fun hcon => hj hcon.2)]
      exact if_neg (fun hcon => hj hcon.2.2)

lemma exists_chunk_cover {n c i : ℕ} (hc : 1 ≤ c) (hi : i < n) :
    ∃ k ∈ List.range (nChunks n c), k * c ≤ i ∧ i < min ((k + 1) * c) n := by
  refine ⟨i / c, List.mem_range.mpr ?_, Nat.div_mul_le_self i c, ?_⟩
  · have h1 : nChunks n c = (n - 1) / c + 1 := by
      unfold nChunks
      have h2 : n + c - 1 = (n - 1) + c := by omega
      rw [h2, Nat.add_div_right _ (by omega)]
    have h3 : i / c ≤ (n - 1) / c := Nat.div_le_div_right (by omega)
    omega
  · refine lt_min ?_ hi
    have h1 := Nat.div_add_mod i c
    have h2 : i % c < c := Nat.mod_lt _ (by omega)
    have h3 : (i / c + 1) * c = c * (i / c) + c := by ring
    rw [h3]
    linarith

lemma compute_distance_matrix_entry (sensors : List Sensor) (c i j : ℕ)
    (hc : 1 ≤ c) :
    (compute_distance_matrix sensors c).1 i j
      = if i < sensors.length ∧ j < sensors.length
        then dist3 (posOf sensors i) (posOf sensors j) else 0 := by
  simp only [compute_distance_matrix]
  rw [foldl_writeChunk_eval]
  by_cases hij : i < sensors.length ∧ j < sensors.length
  · rw [if_pos ⟨exists_chunk_cover hc hij.1, hij.2⟩, if_pos hij]
  · rw [if_neg, if_neg hij]
    rintro ⟨⟨k, hk, hle, hlt⟩, hj⟩
    exact hij ⟨lt_of_lt_of_le hlt (min_le_right _ _), hj⟩

/-- C6: the chunk size has no effect on the distance matrix — for a
nonempty sensor table and any two chunk sizes at least 1,
`compute_distance_matrix` returns exactly the same matrix (and tube-id
column). -/
theorem compute_distance_matrix_chunk_invariant (sensors : List Sensor)
    (c1 c2 : ℕ) (_hne : 0 < sensors.length) (h1 : 1 ≤ c1) (h2 : 1 ≤ c2) :
    compute_distance_matrix sensors c1 = compute_distance_matrix sensors c2 := by
  have hfst : (compute_distance_matrix sensors c1).1
      = (compute_distance_matrix sensors c2).1 := by
    funext i j
    rw [compute_distance_matrix_entry sensors c1 i j h1,
      compute_distance_matrix_entry sensors c2 i j h2]
  exact Prod.ext hfst rfl

/-- Witness for C6 on a concrete one-sensor table with chunk sizes 1, 2. -/
theorem compute_distance_matrix_chunk_invariant_witness :
    compute_distance_matrix [⟨1, 0, 0, 0⟩] 1
      = compute_distance_matrix [⟨1, 0, 0, 0⟩] 2 :=
  compute_distance_matrix_chunk_invariant [⟨1, 0, 0, 0⟩] 1 2 (by simp)
    (le_refl 1) (by norm_num)

/-- C7: the matrix returned by `compute_distance_matrix` is exactly
symmetric with an exactly zero diagonal. -/
theorem compute_distance_matrix_symm_diag (sensors : List Sensor) (c i j : ℕ)
    (hc : 1 ≤ c) :
    (compute_distance_matrix sensors c).1 i j
        = (compute_distance_matrix sensors c).1 j i ∧
      (compute_distance_matrix sensors c).1 i i = 0 := by
  constructor
  · rw [compute_distance_matrix_entry sensors c i j hc,
      compute_distance_matrix_entry sensors c j i hc]
    by_cases h : i < sensors.length ∧ j < sensors.length
    · rw [if_pos h, if_pos (and_comm.mp h), dist3_comm]
    · rw [if_neg h, if_neg (fun hcon => h (and_comm.mp hcon))]
  · rw [compute_distance_matrix_entry sensors c i i hc]
    by_cases h : i < sensors.length ∧ i < sensors.length
    · rw [if_pos h, dist3_self]
    · rw [if_neg h]

/-- Witness for C7 on a concrete two-sensor table. -/
theorem compute_distance_matrix_symm_diag_witness :
    (compute_distance_matrix [⟨1, 0, 0, 0⟩, ⟨2, 3, 4, 5⟩] 1).1 0 1
        = (compute_distance_matrix [⟨1, 0, 0, 0⟩, ⟨2, 3, 4, 5⟩] 1).1 1 0 ∧
      (compute_distance_matrix [⟨1, 0, 0, 0⟩, ⟨2, 3, 4, 5⟩] 1).1 0 0 = 0 :=
  compute_distance_matrix_symm_diag [⟨1, 0, 0, 0⟩, ⟨2, 3, 4, 5⟩] 1 0 1
    (le_refl 1)

lemma leIdx_trans (l : List ℝ) : ∀ a b c, leIdx l a b = true →
    leIdx l b c = true → leIdx l a c = true := by
  intro a b c hab hbc
  rw [leIdx, decide_eq_true_eq] at hab hbc ⊢
  rcases hab with h1 | ⟨h1, h1'⟩ <;> rcases hbc with h2 | ⟨h2, h2'⟩
  · exact Or.inl (h1.trans h2)
  · exact Or.inl (h1.trans_eq h2)
  · exact Or.inl (h1.trans_lt h2)
  · exact Or.inr ⟨h1.trans h2, h1'.trans h2'⟩

lemma leIdx_total (l : List ℝ) : ∀ a b, (leIdx l a b || leIdx l b a) = true := by
  intro a b
  rw [Bool.or_eq_true, leIdx, leIdx, decide_eq_true_eq, decide_eq_true_eq]
  rcases lt_trichotomy (l.getD a 0) (l.getD b 0) with h | h | h
  · exact Or.inl (Or.inl h)
  · rcases le_total a b with hab | hab
    · exact Or.inl (Or.inr ⟨h, hab⟩)
    · exact Or.inr (Or.inr ⟨h.symm, hab⟩)
  · exact Or.inr (Or.inl h)

lemma argsort_perm (l : List ℝ) : (argsort l).Perm (List.range l.length) :=
  List.mergeSort_perm _ _

lemma argsort_sorted (l : List ℝ) :
    (argsort l).Pairwise (fun a b => leIdx l a b = true) :=
  List.sorted_mergeSort (leIdx_trans l) (leIdx_total l) _

lemma argsort_eq {l : List ℝ} {out : List ℕ}
    (hperm : out.Perm (List.range l.length))
    (hsort : out.Pairwise (fun a b => leIdx l a b = true)) :
    argsort l = out := by
  haveI : IsAntisymm ℕ (fun a b => leIdx l a b = true) := by
    refine ⟨?_⟩
    intro a b hab hba
    rw [leIdx, decide_eq_true_eq] at hab hba
    rcases hab with h1 | ⟨h1, h1'⟩ <;> rcases hba with h2 | ⟨h2, h2'⟩
    · exact absurd h2 (by linarith)
    · exact absurd h1 (by linarith)
    · exact absurd h2 (by linarith)
    · exact le_antisymm h1' h2'
  exact List.eq_of_perm_of_sorted ((argsort_perm l).trans hperm.symm)
    (argsort_sorted l) hsort

lemma row_getD {D : ℕ → ℕ → ℝ} {n i a : ℕ} (ha : a < n) :
    ((List.range n).map (D i)).getD a 0 = D i a := by
  rw [List.getD_eq_getElem?_getD, List.getElem?_map, List.getElem?_range ha]
  rfl

/-- C3 (amended): assuming sensor `i` is strictly closest to itself in
row `i` (the implicit precondition of the `skip the first` self-removal),
row `i` of the KNN index lists all `j ≠ i` (as a permutation of them)
with non-decreasing `distances[i][j]`.  No tie order is asserted: the
source's `np.argsort` (default unstable quicksort) guarantees none, and
in particular ties are not broken by ascending `tubeIds[j]` — the
counterexample shows a larger tube id preceding a smaller one at exactly
equal distance.  Both conclusions here are independent of the tie order,
so they hold for any argsort output the program can produce. -/
theorem knn_row_sorted_neighbors (D : ℕ → ℕ → ℝ) (n i : ℕ) (hi : i < n)
    (hself : ∀ j, j < n → j ≠ i → D i i < D i j) :
    (knnIndices D n i).Perm ((List.range n).erase i) ∧
      (knnIndices D n i).Pairwise (fun a b => D i a ≤ D i b) := by
  have hrowlen : ((List.range n).map (D i)).length = n := by simp
  have hperm : (argsort ((List.range n).map (D i))).Perm (List.range n) := by
    have := argsort_perm ((List.range n).map (D i))
    rwa [hrowlen] at this
  have hsort := argsort_sorted ((List.range n).map (D i))
  have hmem : ∀ a ∈ argsort ((List.range n).map (D i)), a < n :=
    fun a ha => List.mem_range.mp (hperm.subset ha)
  have hlen : (argsort ((List.range n).map (D i))).length = n := by
    rw [hperm.length_eq, List.length_range]
  obtain ⟨a, rest, hcons⟩ :
      ∃ a rest, argsort ((List.range n).map (D i)) = a :: rest := by
    cases hse : argsort ((List.range n).map (D i)) with
    | nil => rw [hse] at hlen; simp at hlen; omega
    | cons a rest => exact ⟨a, rest, rfl⟩
  have hai : a = i := by
    by_contra hne
    have hi_mem : i ∈ argsort ((List.range n).map (D i)) :=
      hperm.mem_iff.mpr (List.mem_range.mpr hi)
    rw [hcons] at hi_mem
    have hi_rest : i ∈ rest := by
      rcases List.mem_cons.mp hi_mem with h | h
      · exact absurd h.symm hne
      · exact h
    have hle : leIdx ((List.range n).map (D i)) a i = true := by
      rw [hcons] at hsort
      exact (List.pairwise_cons.mp hsort).1 i hi_rest
    have han : a < n := hmem a (hcons ▸ List.mem_cons_self a rest)
    rw [leIdx, decide_eq_true_eq, row_getD han, row_getD hi] at hle
    have hgt := hself a han hne
    rcases hle with h | h
    · exact absurd h (by linarith)
    · exact hgt.ne' h.1
  have hknn : knnIndices D n i = rest := by
    rw [knnIndices, hcons, List.drop_one, List.tail_cons]
  have hconsi : argsort ((List.range n).map (D i)) = i :: rest := hai ▸ hcons
  constructor
  · have h1 : (i :: rest).Perm (List.range n) := hconsi ▸ hperm
    have h2 : (List.range n).Perm (i :: (List.range n).erase i) :=
      List.perm_cons_erase (List.mem_range.mpr hi)
    rw [hknn]
    exact (List.perm_cons i).mp (h1.trans h2)
  · rw [hknn]
    have hrest_sort : rest.Pairwise
        (fun a b => leIdx ((List.range n).map (D i)) a b = true) :=
      (List.pairwise_cons.mp (hcons ▸ hsort)).2
    have hrest_mem : ∀ x ∈ rest, x < n :=
      fun x hx => hmem x (hcons ▸ List.mem_cons_of_mem a hx)
    refine List.Pairwise.imp_of_mem ?_ hrest_sort
    intro x y hx hy hle
    rw [leIdx, decide_eq_true_eq, row_getD (hrest_mem x hx),
      row_getD (hrest_mem y hy)] at hle
    rcases hle with h | h
    · exact le_of_lt h
    · exact le_of_eq h.1

/-- Witness for C3 on a concrete 2-point row with a strict self minimum. -/
theorem knn_row_sorted_neighbors_witness :
    (knnIndices (fun i j => if i = j then 0 else 1) 2 0).Perm
        ((List.range 2).erase 0) ∧
      (knnIndices (fun i j => if i = j then 0 else 1) 2 0).Pairwise
        (fun a b => (fun i j : ℕ => if i = j then (0 : ℝ) else 1) 0 a
            ≤ (fun i j : ℕ => if i = j then (0 : ℝ) else 1) 0 b) :=
  knn_row_sorted_neighbors (fun i j => if i = j then 0 else 1) 2 0
    (by norm_num)
    (by
      intro j hj hji
      simp only [if_neg (Ne.symm hji), if_pos rfl]
      norm_num)

lemma argsort_two_zeros : argsort ([0, 0] : List ℝ) = [0, 1] := by
  refine argsort_eq ?_ ?_
  · rw [show (([0, 0] : List ℝ)).length = 2 from rfl,
      show List.range 2 = [0, 1] from rfl]
  · norm_num [List.pairwise_cons, leIdx, List.getD]

lemma knn_dup_entry : ∀ i j, i < 2 → j < 2 →
    (compute_distance_matrix [⟨7, 0, 0, 0⟩, ⟨8, 0, 0, 0⟩] 5000).1 i j = 0 := by
  intro i j hi hj
  rw [compute_distance_matrix_entry _ _ _ _ (by norm_num)]
  rw [if_pos ⟨by simpa using hi, by simpa using hj⟩]
  interval_cases i <;> interval_cases j <;>
    · show dist3 (0, 0, 0) (0, 0, 0) = 0
      exact dist3_self _

lemma knn_dup_indices : ∀ i, i < 2 →
    knnIndices (compute_distance_matrix [⟨7, 0, 0, 0⟩, ⟨8, 0, 0, 0⟩] 5000).1
      2 i = [1] := by
  intro i hi
  have h0 := knn_dup_entry i 0 hi (by norm_num)
  have h1 := knn_dup_entry i 1 hi (by norm_num)
  rw [knnIndices, show List.range 2 = [0, 1] from rfl, List.map]
  simp only [List.map, h0, h1]
  rw [argsort_two_zeros]
  rfl

/-- C5 (code bug): on a table with two sensors at exactly the same
position (tube ids 7 and 8), the KNN lookup's row for sensor 1 is `[8]` —
its own tube id.  `compute_knn_lookup` removes `sorted_indices[0]`
assuming self sorts first, but under the distance-0 tie index 0 sorts
first in both rows, so row 1 keeps self. -/
theorem compute_knn_lookup_self_in_row :
    compute_knn_lookup
        (compute_distance_matrix [⟨7, 0, 0, 0⟩, ⟨8, 0, 0, 0⟩] 5000).1
        (compute_distance_matrix [⟨7, 0, 0, 0⟩, ⟨8, 0, 0, 0⟩] 5000).2 none
      = [[8], [8]] ∧
    (compute_distance_matrix [⟨7, 0, 0, 0⟩, ⟨8, 0, 0, 0⟩] 5000).2 = [7, 8] := by
  refine ⟨?_, rfl⟩
  rw [show (compute_distance_matrix [⟨7, 0, 0, 0⟩, ⟨8, 0, 0, 0⟩] 5000).2
    = [7, 8] from rfl]
  simp only [compute_knn_lookup, List.length_cons, List.length_nil]
  rw [show List.range (0 + 1 + 1) = [0, 1] from rfl]
  simp only [List.map]
  rw [show (0 : ℕ) + 1 + 1 = 2 from rfl, knn_dup_indices 0 (by norm_num),
    knn_dup_indices 1 (by norm_num)]
  rfl

lemma argsort_zero_one_one : argsort ([0, 1, 1] : List ℝ) = [0, 1, 2] := by
  refine argsort_eq ?_ ?_
  · rw [show (([0, 1, 1] : List ℝ)).length = 3 from rfl,
      show List.range 3 = [0, 1, 2] from rfl]
  · norm_num [List.pairwise_cons, leIdx, List.getD]

lemma knn_tie_entry_01 :
    (compute_distance_matrix [⟨1, 0, 0, 0⟩, ⟨9, 1, 0, 0⟩, ⟨3, -1, 0, 0⟩]
      5000).1 0 1 = 1 := by
  rw [compute_distance_matrix_entry _ _ _ _ (by norm_num),
    if_pos ⟨by simp, by simp⟩]
  show dist3 (0, 0, 0) (1, 0, 0) = 1
  norm_num [dist3, Real.sqrt_one]

lemma knn_tie_entry_02 :
    (compute_distance_matrix [⟨1, 0, 0, 0⟩, ⟨9, 1, 0, 0⟩, ⟨3, -1, 0, 0⟩]
      5000).1 0 2 = 1 := by
  rw [compute_distance_matrix_entry _ _ _ _ (by norm_num),
    if_pos ⟨by simp, by simp⟩]
  show dist3 (0, 0, 0) (-1, 0, 0) = 1
  norm_num [dist3, Real.sqrt_one]

lemma knn_tie_entry_00 :
    (compute_distance_matrix [⟨1, 0, 0, 0⟩, ⟨9, 1, 0, 0⟩, ⟨3, -1, 0, 0⟩]
      5000).1 0 0 = 0 := by
  rw [compute_distance_matrix_entry _ _ _ _ (by norm_num),
    if_pos ⟨by simp, by simp⟩]
  exact dist3_self _

lemma knn_tie_indices :
    knnIndices (compute_distance_matrix
      [⟨1, 0, 0, 0⟩, ⟨9, 1, 0, 0⟩, ⟨3, -1, 0, 0⟩] 5000).1 3 0 = [1, 2] := by
  rw [knnIndices, show List.range 3 = [0, 1, 2] from rfl]
  simp only [List.map, knn_tie_entry_00, knn_tie_entry_01, knn_tie_entry_02]
  rw [argsort_zero_one_one]
  rfl

/-- Counterexample for C3 as stated: three sensors with tube ids
`[1, 9, 3]`, where sensors 1 and 2 are at exactly distance 1 from
sensor 0.  Row 0 of the lookup is `[9, 3]`: at equal distance the tie is
in index order, so the larger tube id 9 precedes the smaller tube id 3 —
not the ascending-tube-id tie-break the claim states. -/
theorem knn_row_tiebreak_not_by_tube_id :
    (compute_distance_matrix [⟨1, 0, 0, 0⟩, ⟨9, 1, 0, 0⟩, ⟨3, -1, 0, 0⟩]
          5000).1 0 1
        = (compute_distance_matrix [⟨1, 0, 0, 0⟩, ⟨9, 1, 0, 0⟩, ⟨3, -1, 0, 0⟩]
          5000).1 0 2 ∧
      (compute_knn_lookup
          (compute_distance_matrix
            [⟨1, 0, 0, 0⟩, ⟨9, 1, 0, 0⟩, ⟨3, -1, 0, 0⟩] 5000).1
          (compute_distance_matrix
            [⟨1, 0, 0, 0⟩, ⟨9, 1, 0, 0⟩, ⟨3, -1, 0, 0⟩] 5000).2
          none).getD 0 []
        = [9, 3] := by
  constructor
  · rw [knn_tie_entry_01, knn_tie_entry_02]
  · rw [show (compute_distance_matrix
      [⟨1, 0, 0, 0⟩, ⟨9, 1, 0, 0⟩, ⟨3, -1, 0, 0⟩] 5000).2
      = [1, 9, 3] from rfl]
    simp only [compute_knn_lookup, List.length_cons, List.length_nil]
    rw [show List.range (0 + 1 + 1 + 1) = [0, 1, 2] from rfl]
    simp only [List.map]
    rw [show (0 : ℕ) + 1 + 1 + 1 = 3 from rfl, knn_tie_indices]
    rfl
